import Mathlib

/-!
# mern-backend: a shallow embedding of `Server.js` and its two models

The Express handlers of `src/Server.js` are embedded as pure functions over an
explicit database state.  A handler takes what it reads from the request (the
decoded token claims, the body, a route parameter) and the state before, and
returns the response it sends and the state after.

External services are parameters of the handlers:

* `bcrypt.hash` / `bcrypt.compare` are functions `hash` and `compare`;
* `jwt.sign` / `jwt.verify` are functions `sign` and `verify`;
* `cloudinary.uploader.destroy` is a function giving the outcome of the call,
  the result it resolves with or the error it throws; the handler also returns
  the list of public ids it was called on;
* what Mongoose does with a value that is not of the type of its schema path (the
  cast of an assigned value, the cast of a query filter) is a parameter; a value
  of the schema type is handled by the embedding itself.

A request body is `req.body` as `express.json()` produced it: a field is a
JavaScript value, and a number is an IEEE-754 double.

A MongoDB collection is a list of documents in insertion order.  `findOne`
returns the first matching document, `findOneAndDelete` removes it.  The
`timestamps` of the user schema play no role in any handler and are left out.
-/

namespace MernBackend

/-! ## JavaScript values -/

/-- A JavaScript number, an IEEE-754 double: `NaN`, an infinity, or the finite
value `mantissa * 2 ^ (exponent - 1074)` with its sign (both zeros included).
Every finite double has this form and every value of this form is a double;
a double may have several such forms, which no handler distinguishes, as the
handlers only copy numbers and test them for truthiness. -/
inductive JsNumber where
  | nan
  | infinity (negative : Bool)
  | finite (negative : Bool) (mantissa : Fin (2 ^ 53)) (exponent : Fin 2046)
deriving DecidableEq, Repr

/-- The double that is the natural number `n`, for `n` below `2 ^ 53`. -/
def JsNumber.ofNat (n : Nat) (h : n < 2 ^ 53) : JsNumber :=
  .finite false ⟨n, h⟩ 1074

/-- Truthiness of a number: every number but `NaN`, `0` and `-0`. -/
def JsNumber.truthy : JsNumber → Bool
  | .nan => false
  | .infinity _ => true
  | .finite _ mantissa _ => mantissa != 0

/-- A field of a parsed JSON body: `undefined` when the key is missing,
otherwise the value; `object` stands for any object or array. -/
inductive JsValue where
  | undefined
  | null
  | bool (b : Bool)
  | number (n : JsNumber)
  | string (s : String)
  | object
deriving DecidableEq, Repr

/-- JavaScript truthiness. -/
def JsValue.truthy : JsValue → Bool
  | .undefined => false
  | .null => false
  | .bool b => b
  | .number n => n.truthy
  | .string s => s != ""
  | .object => true

/-! ## Data model (`models/user.js`, `models/profile.js`) -/

/-- A MongoDB ObjectId. -/
abbrev ObjectId := Nat

/-- A document of the `user` collection (`userSchema`). -/
structure User where
  _id : ObjectId
  name : String
  email : String
  isAdmin : Bool
  password : String
deriving DecidableEq, Repr

/-- A document of the `profile` collection (`profileSchema`). -/
structure Profile where
  _id : ObjectId
  userId : ObjectId
  name : String
  age : JsNumber
  biography : String
  link : String
deriving DecidableEq, Repr

/-- The two collections. -/
structure Db where
  users : List User
  profiles : List Profile
deriving DecidableEq, Repr

/-- The payload of a session token: `{ id, email }`. -/
structure Claims where
  id : ObjectId
  email : String
deriving DecidableEq, Repr

/-- A response: the status code and the body sent with it. -/
structure Response (β : Type) where
  status : Nat
  body : β
deriving DecidableEq, Repr

/-! ## CORS origin callback (`Server.js` 18-33) -/

/-- The list `allowedOrigins`. -/
def allowedOrigins : List String :=
  ["http://localhost:3000", "https://portfoliofun.netlify.app/"]

/-- The `origin` function handed to `cors`: `callback(null, true)` is
`Except.ok true`, `callback(new Error(m))` is `Except.error m`.  The argument is
`none` when the request has no Origin header (`undefined`). -/
def corsOrigin (origin : Option String) : Except String Bool :=
  match origin with
  | none => .ok true
  | some o =>
    if o = "" ∨ o ∈ allowedOrigins then .ok true
    else .error "Not allowed by CORS"

/-! ## `verifyToken` (`Server.js` 62-79) -/

/-- The part of a request `verifyToken` reads and writes: the Authorization
header (`none` when `req.headers["authorization"]` is `undefined`) and the
`user` property it sets. -/
structure Request where
  authorization : Option String
  user : Option Claims
deriving DecidableEq, Repr

/-- What a middleware does: it either answers itself, or calls `next()` with
the (possibly modified) request. -/
inductive Gate where
  | respond (r : Response String)
  | next (req : Request)
deriving DecidableEq, Repr

/-- JavaScript truthiness of a value that is a string or `undefined`. -/
def truthy (s : Option String) : Bool :=
  match s with
  | none => false
  | some v => v != ""

/-- The method `String.prototype.split` with a one-character separator, on the
characters of the string: the pieces between the occurrences of the separator,
empty pieces included. -/
def split (sep : Char) : List Char → List (List Char)
  | [] => [[]]
  | c :: cs =>
    if c = sep then [] :: split sep cs
    else
      match split sep cs with
      | [] => [[c]]
      | w :: ws => (c :: w) :: ws

/-- The expression `authHeader.split(" ")[1]`: `none` is `undefined`. -/
def secondSegment (h : String) : Option String :=
  ((split ' ' h.toList)[1]?).map String.mk

/-- The expression `authHeader && authHeader.split(" ")[1]`: a falsy header is
returned as it is, otherwise the element at index 1 of the split. -/
def headerToken (authHeader : Option String) : Option String :=
  match authHeader with
  | none => none
  | some h => if h = "" then some "" else secondSegment h

/-- The middleware `verifyToken`.  `verify tok` is `jwt.verify` with the
configured key: `none` when the callback receives an error, `some c` when it
receives the decoded claims `c`. -/
def verifyToken (verify : String → Option Claims) (req : Request) : Gate :=
  let token := headerToken req.authorization
  if truthy token then
    match verify (token.getD "") with
    | none => .respond ⟨403, "Invalid or expired token"⟩
    | some decodedUser => .next { req with user := some decodedUser }
  else
    .respond ⟨401, "No token provided"⟩

/-! ## Collections -/

/-- Every ObjectId that occurs in the database. -/
def Db.ids (st : Db) : List ObjectId :=
  st.users.map (fun u => u._id) ++ st.profiles.map (fun p => p._id)
    ++ st.profiles.map (fun p => p.userId)

/-- The ObjectId given to a new document.  Mongoose generates it when the
document is constructed, and it differs from every id generated before; here it
is the successor of the largest id that occurs in the database. -/
def Db.freshId (st : Db) : ObjectId :=
  st.ids.foldr max 0 + 1

/-- The query `user.findById(id)`. -/
def User.findById (users : List User) (id : ObjectId) : Option User :=
  users.find? (fun u => u._id == id)

/-- The query `user.findOne({ email })`. -/
def User.findOne (users : List User) (email : String) : Option User :=
  users.find? (fun u => u.email == email)

/-- The query `user.findByIdAndDelete(id)`. -/
def User.findByIdAndDelete (users : List User) (id : ObjectId) : List User :=
  users.eraseP (fun u => u._id == id)

/-- The document `new user({ name, email, password })` after validation:
`name`, `email` and `password` are `required`, which a missing value and the
empty string both fail; `isAdmin` takes its default. -/
def User.validate (id : ObjectId) (name email : Option String) (password : String) :
    Option User :=
  match name, email with
  | some n, some e =>
    if n ≠ "" ∧ e ≠ "" ∧ password ≠ "" then
      some { _id := id, name := n, email := e, isAdmin := false, password := password }
    else none
  | _, _ => none

/-- Inserting a validated user: the unique index on `email` rejects the insert
when a stored user has the same email. -/
def User.insert (users : List User) (u : User) : Option (List User) :=
  if users.any (fun v => v.email == u.email) then none else some (users ++ [u])

/-- The query `Profile.findOne({ userId })`. -/
def Profile.findOne (profiles : List Profile) (userId : ObjectId) : Option Profile :=
  profiles.find? (fun p => p.userId == userId)

/-- The query `Profile.findOneAndDelete({ userId })`. -/
def Profile.findOneAndDelete (profiles : List Profile) (userId : ObjectId) : List Profile :=
  profiles.eraseP (fun p => p.userId == userId)

/-- The document `new Profile({ userId })`: every other path takes the default
of `profileSchema`. -/
def Profile.new (id userId : ObjectId) : Profile :=
  { _id := id,
    userId := userId,
    name := "Your Name",
    age := JsNumber.ofNat 18 (by decide),
    biography := "This user hasn't added a bio yet.",
    link := "This user hasn't added a Photo yet." }

/-- The call `profile.save()` on a document that was loaded from the collection:
the stored document with the same `_id` is replaced. -/
def Profile.save (profiles : List Profile) (p : Profile) : List Profile :=
  profiles.map (fun q => if q._id == p._id then p else q)

/-! ## `POST /add-user` (`Server.js` 119-139) -/

/-- The body of an add-user request; `none` is a missing field. -/
structure AddUserBody where
  name : Option String
  email : Option String
  password : Option String
deriving DecidableEq, Repr

/-- The handler of `POST /add-user`.  `bcrypt.hash` throws on a missing
password; the salt it draws is part of `hash`. -/
def addUser (hash : String → String) (body : AddUserBody) (st : Db) :
    Response String × Db :=
  match body.password with
  | none => (⟨500, "Error creating user"⟩, st)
  | some pw =>
    let hashedPassword := hash pw
    match User.validate st.freshId body.name body.email hashedPassword with
    | none => (⟨500, "Error creating user"⟩, st)
    | some newUser =>
      match User.insert st.users newUser with
      | none => (⟨500, "Error creating user"⟩, st)
      | some users =>
        let st1 : Db := { st with users := users }
        let newProfile := Profile.new st1.freshId newUser._id
        (⟨201, "User created successfully!"⟩,
          { st1 with profiles := st1.profiles ++ [newProfile] })

/-! ## `GET /profile` (`Server.js` 140-153) -/

/-- The body of a response of the profile routes: plain text (`res.send`) or
the profile document (`res.json`). -/
inductive ProfileReply where
  | text (s : String)
  | json (p : Profile)
deriving DecidableEq, Repr

/-- The handler of `GET /profile`, run with `req.user = claims`. -/
def getProfile (claims : Claims) (st : Db) : Response ProfileReply :=
  match Profile.findOne st.profiles claims.id with
  | none => ⟨404, .text "Profile not found"⟩
  | some profile => ⟨200, .json profile⟩

/-! ## `POST /login` (`Server.js` 202-240) -/

/-- The body of a login request: the fields `email` and `password` of
`req.body`. -/
structure LoginBody where
  email : JsValue
  password : JsValue
deriving DecidableEq, Repr

/-- The `user` object of a successful login response. -/
structure PublicUser where
  id : ObjectId
  name : String
  email : String
deriving DecidableEq, Repr

/-- The body of a login response: `{ message }` or `{ message, token, user }`. -/
inductive LoginReply (Tok : Type) where
  | message (m : String)
  | success (message : String) (token : Tok) (user : PublicUser)
deriving DecidableEq, Repr

/-- The handler of `POST /login`.  `compare` is `bcrypt.compare` on two
strings, `sign` is `jwt.sign` with the configured key and `expiresIn: "2h"`.
For an email that is a string, `user.findOne({ email })` is the first user
with that email; for any other value `queryOther` gives the outcome of the
query as Mongoose casts the filter, the document found or the error thrown.
`bcrypt.compare` throws when the password is missing or not a string, and the
`catch` answers 500. -/
def login {Tok : Type} (queryOther : JsValue → List User → Except String (Option User))
    (compare : String → String → Bool) (sign : Claims → Tok)
    (body : LoginBody) (st : Db) : Response (LoginReply Tok) :=
  let found : Except String (Option User) :=
    match body.email with
    | .string email => .ok (User.findOne st.users email)
    | other => queryOther other st.users
  match found with
  | .error _ => ⟨500, .message "Error logging in"⟩
  | .ok none => ⟨404, .message "User not found"⟩
  | .ok (some existingUser) =>
    match body.password with
    | .string password =>
      if compare password existingUser.password then
        let token := sign { id := existingUser._id, email := existingUser.email }
        ⟨200, .success "Login successful" token
          { id := existingUser._id, name := existingUser.name, email := existingUser.email }⟩
      else
        ⟨401, .message "Invalid credentials"⟩
    | _ => ⟨500, .message "Error logging in"⟩

/-! ## `extractPublicId` (`Server.js` 242-245)

The pattern is `/\/upload\/(?:v\d+\/)?([^\.]+)/`.  `String.prototype.match`
returns the leftmost match; at each start the optional group is tried first
(greedy) and skipped when the rest of the pattern fails after it. -/

/-- The literal `\/upload\/`. -/
def uploadLiteral : List Char := "/upload/".toList

/-- The group `(?:v\d+\/)` at the head of the input: the input that remains
after it.  `\d+` takes every digit; with fewer digits the next character
would be a digit and `\/` would fail. -/
def versionSegment : List Char → Option (List Char)
  | 'v' :: cs =>
    match cs.dropWhile Char.isDigit with
    | '/' :: rest => if (cs.takeWhile Char.isDigit).isEmpty then none else some rest
    | _ => none
  | _ => none

/-- The capture `([^\.]+)` at the head of the input: the longest run of
characters other than `.`, which must not be empty. -/
def captureGroup (cs : List Char) : Option (List Char) :=
  let g := cs.takeWhile (fun c => c != '.')
  if g.isEmpty then none else some g

/-- The pattern after its literal: `(?:v\d+\/)?([^\.]+)`. -/
def matchAfterUpload (cs : List Char) : Option (List Char) :=
  match versionSegment cs with
  | some rest =>
    match captureGroup rest with
    | some g => some g
    | none => captureGroup cs
  | none => captureGroup cs

/-- The pattern anchored at the head of the input: the capture of the match. -/
def matchAt (cs : List Char) : Option (List Char) :=
  if uploadLiteral.isPrefixOf cs then matchAfterUpload (cs.drop uploadLiteral.length)
  else none

/-- The search for the leftmost match: the pattern is tried at every start
position in turn. -/
def regexSearch : List Char → Option (List Char)
  | [] => none
  | c :: cs =>
    match matchAt (c :: cs) with
    | some g => some g
    | none => regexSearch cs

/-- The function `extractPublicId`: `match[1]`, or `none` for `null`. -/
def extractPublicId (url : String) : Option String :=
  (regexSearch url.toList).map String.mk

/-! ## `DELETE /deleteUser/:id` (`Server.js` 248-278) -/

/-- The handler of `DELETE /deleteUser/:id`, run with `req.user = claims` and
`req.params.id = targetId`.  `destroy publicId` is the outcome of
`cloudinary.uploader.destroy(publicId)`: `.ok r` when it resolves with the
result `r` (such as `ok` or `not found`), `.error e` when it throws.  The third
component lists the public ids `destroy` was called on. -/
def deleteUser (destroy : String → Except String String) (claims : Claims)
    (targetId : ObjectId) (st : Db) : Response String × Db × List String :=
  let deleted : Db :=
    { users := User.findByIdAndDelete st.users targetId,
      profiles := Profile.findOneAndDelete st.profiles targetId }
  match User.findById st.users claims.id with
  | none => (⟨403, "Access denied"⟩, st, [])
  | some requester =>
    if requester.isAdmin = false then (⟨403, "Access denied"⟩, st, [])
    else
      match Profile.findOne st.profiles targetId with
      | none => (⟨200, "User deleted successfully"⟩, deleted, [])
      | some targetProfile =>
        if targetProfile.link = "" then (⟨200, "User deleted successfully"⟩, deleted, [])
        else
          match extractPublicId targetProfile.link with
          | none => (⟨200, "User deleted successfully"⟩, deleted, [])
          | some publicId =>
            if publicId = "" then (⟨200, "User deleted successfully"⟩, deleted, [])
            else
              match destroy publicId with
              | .ok _ => (⟨200, "User deleted successfully"⟩, deleted, [publicId])
              | .error _ => (⟨500, "Error deleting user"⟩, st, [publicId])

/-! ## `PUT /update-profile` (`Server.js` 280-301) -/

/-- The body of an update-profile request: the fields `name`, `age` and
`biography` of `req.body`. -/
structure UpdateProfileBody where
  name : JsValue
  age : JsValue
  biography : JsValue
deriving DecidableEq, Repr

/-- The cast Mongoose applies to a value assigned to a `String` path: a string
is kept as it is; for any other value `other` gives the string it is converted
to, or `none` when the cast fails. -/
def castString (other : JsValue → Option String) : JsValue → Option String
  | .string s => some s
  | v => other v

/-- The cast Mongoose applies to a value assigned to a `Number` path: a number
is kept as it is; for any other value `other` gives the number it is converted
to, or `none` when the cast fails. -/
def castNumber (other : JsValue → Option JsNumber) : JsValue → Option JsNumber
  | .number n => some n
  | v => other v

/-- The handler of `PUT /update-profile`, run with `req.user = claims`.  Each
`if (field) profile.field = field` assigns the cast of a truthy field; an
assignment whose cast fails leaves a cast error on the document, `save()` then
rejects, nothing is written and the `catch` answers 500. -/
def updateProfile (castStringOther : JsValue → Option String)
    (castNumberOther : JsValue → Option JsNumber)
    (claims : Claims) (body : UpdateProfileBody) (st : Db) :
    Response ProfileReply × Db :=
  match Profile.findOne st.profiles claims.id with
  | none => (⟨404, .text "Profile not found"⟩, st)
  | some profile =>
    let name :=
      if body.name.truthy then castString castStringOther body.name else some profile.name
    let age :=
      if body.age.truthy then castNumber castNumberOther body.age else some profile.age
    let biography :=
      if body.biography.truthy then castString castStringOther body.biography
      else some profile.biography
    match name, age, biography with
    | some name, some age, some biography =>
      let profile := { profile with name := name, age := age, biography := biography }
      (⟨200, .json profile⟩, { st with profiles := Profile.save st.profiles profile })
    | _, _, _ => (⟨500, .text "Error updating profile"⟩, st)

/-! ## Auxiliary definitions for the statements about registration -/

/-- Whether an add-user request gets past `bcrypt.hash` and the validation of
the user schema: the password is present, and name, email and hashed password
are present and non-empty. -/
def addUserValid (hash : String → String) (body : AddUserBody) : Bool :=
  match body.password with
  | none => false
  | some pw => (User.validate 0 body.name body.email (hash pw)).isSome

/-- The state add-user leaves when it succeeds. -/
def registered (hash : String → String) (name email pw : String) (st : Db) : Db :=
  let users := st.users ++ [⟨st.freshId, name, email, false, hash pw⟩]
  { users := users,
    profiles := st.profiles ++ [Profile.new (Db.freshId { st with users := users }) st.freshId] }

/-! ## Sample data -/

/-- Sample: an administrator. -/
def sampleAdmin : User :=
  { _id := 1, name := "Root", email := "root@x.com", isAdmin := true, password := "h1" }

/-- Sample: a member. -/
def sampleMember : User :=
  { _id := 2, name := "A", email := "a@x.com", isAdmin := false, password := "h2" }

/-- Sample: the profile of the member, with an avatar at the image host. -/
def sampleMemberProfile : Profile :=
  { _id := 4, userId := 2, name := "A", age := JsNumber.ofNat 30 (by decide),
    biography := "Hello",
    link := "https://res.cloudinary.com/demo/image/upload/v17/profiles/abc.png" }

/-- Sample: the administrator, the member, and their profiles. -/
def sampleDb : Db :=
  { users := [sampleAdmin, sampleMember],
    profiles := [Profile.new 3 1, sampleMemberProfile] }

/-! ## The CORS origin check -/

/-- C10: the origin check accepts exactly a missing or empty Origin and the two
listed origins, rejects every other origin with "Not allowed by CORS", and
rejects the production origin written without its trailing slash. -/
theorem corsOrigin_accepts_iff (origin : Option String) :
    (corsOrigin origin = .ok true ↔
      origin = none ∨ origin = some "" ∨ origin = some "http://localhost:3000" ∨
        origin = some "https://portfoliofun.netlify.app/") ∧
    (corsOrigin origin = .ok true ∨ corsOrigin origin = .error "Not allowed by CORS") ∧
    corsOrigin (some "https://portfoliofun.netlify.app") = .error "Not allowed by CORS" := by
  refine ⟨?_, ?_, ?_⟩
  · cases origin with
    | none => simp [corsOrigin]
    | some o =>
      by_cases h : o = "" ∨ o ∈ allowedOrigins
      · have h2 := h
        simp only [allowedOrigins, List.mem_cons, List.mem_singleton, List.mem_nil_iff,
          or_false] at h2
        simp [corsOrigin, h, h2]
      · have h2 := h
        simp only [allowedOrigins, List.mem_cons, List.mem_singleton, List.mem_nil_iff,
          or_false] at h2
        simp [corsOrigin, h, h2]
  · cases origin with
    | none => simp [corsOrigin]
    | some o =>
      by_cases h : o = "" ∨ o ∈ allowedOrigins <;> simp [corsOrigin, h]
  · simp [corsOrigin, allowedOrigins]

/-! ## The auth gate -/

theorem secondSegment_empty : secondSegment "" = none := by decide

theorem headerToken_some (h : String) (hne : h ≠ "") :
    headerToken (some h) = secondSegment h := by
  simp [headerToken, hne]

/-- C1 (as amended): a request without Authorization header, or whose header
has no non-empty second space-separated segment, is answered 401 "No token
provided"; a request whose non-empty second segment fails verification is
answered 403 "Invalid or expired token"; in both cases `next` is not called.
Otherwise `next` is called with the decoded claims stored in `req.user`. -/
theorem verifyToken_cases (verify : String → Option Claims) (req : Request) :
    ((req.authorization = none ∨
        ∃ h, req.authorization = some h ∧
          (secondSegment h = none ∨ secondSegment h = some "")) →
      verifyToken verify req = .respond ⟨401, "No token provided"⟩) ∧
    (∀ h tok, req.authorization = some h → secondSegment h = some tok → tok ≠ "" →
      verify tok = none →
      verifyToken verify req = .respond ⟨403, "Invalid or expired token"⟩) ∧
    (∀ h tok c, req.authorization = some h → secondSegment h = some tok → tok ≠ "" →
      verify tok = some c →
      verifyToken verify req = .next { req with user := some c }) := by
  refine ⟨?_, ?_, ?_⟩
  · rintro (h0 | ⟨h, hh, hs | hs⟩)
    · simp [verifyToken, h0, headerToken, truthy]
    · by_cases hne : h = ""
      · simp [verifyToken, hh, headerToken, hne, truthy]
      · simp [verifyToken, hh, headerToken_some h hne, hs, truthy]
    · by_cases hne : h = ""
      · simp [verifyToken, hh, headerToken, hne, truthy]
      · simp [verifyToken, hh, headerToken_some h hne, hs, truthy]
  · intro h tok hh hs htok hv
    have hne : h ≠ "" := by
      rintro rfl
      rw [secondSegment_empty] at hs
      cases hs
    simp [verifyToken, hh, headerToken_some h hne, hs, truthy, htok, hv]
  · intro h tok c hh hs htok hv
    have hne : h ≠ "" := by
      rintro rfl
      rw [secondSegment_empty] at hs
      cases hs
    simp [verifyToken, hh, headerToken_some h hne, hs, truthy, htok, hv]

/-- C1 (as stated) fails: the header `Bearer` is present, and whatever the
validity of tokens the answer is 401, neither 403 nor a call of `next`. -/
theorem verifyToken_present_header_401 :
    (⟨some "Bearer", none⟩ : Request).authorization ≠ none ∧
    secondSegment "Bearer" = none ∧
    ∀ verify : String → Option Claims,
      verifyToken verify ⟨some "Bearer", none⟩ = .respond ⟨401, "No token provided"⟩ := by
  refine ⟨by decide, by decide, ?_⟩
  intro verify
  rfl


/-! ## Updating a profile -/

theorem Profile.findOne_userId {profiles : List Profile} {uid : ObjectId} {p : Profile}
    (h : Profile.findOne profiles uid = some p) : p.userId = uid := by
  have := List.find?_some h
  simpa using this

theorem Profile.findOne_mem {profiles : List Profile} {uid : ObjectId} {p : Profile}
    (h : Profile.findOne profiles uid = some p) : p ∈ profiles :=
  List.mem_of_find?_eq_some h

theorem Profile.findOne_save {profiles : List Profile} {uid : ObjectId} {p saved : Profile}
    (h : Profile.findOne profiles uid = some p) (hid : saved._id = p._id)
    (hu : saved.userId = uid) :
    Profile.findOne (Profile.save profiles saved) uid = some saved := by
  unfold Profile.findOne Profile.save at *
  induction profiles with
  | nil => simp at h
  | cons q l ih =>
    rw [List.find?_cons] at h
    rw [List.map_cons, List.find?_cons]
    by_cases hq : q.userId = uid
    · have hq2 : (q.userId == uid) = true := by simpa using hq
      rw [hq2] at h
      cases h
      simp [hid, hu]
    · have hq2 : (q.userId == uid) = false := by simpa using hq
      rw [hq2] at h
      have ih2 := ih h
      by_cases hqid : q._id = saved._id
      · simp [hqid, hu]
      · have hqid2 : (q._id == saved._id) = false := by simpa using hqid
        simp only [hqid2, Bool.false_eq_true, if_false, hq2]
        exact ih2

theorem assign_string (other : JsValue → Option String) (v : JsValue) (old : String)
    (h : v.truthy = false ∨ ∃ n, v = .string n) :
    ∃ new, (if v.truthy then castString other v else some old) = some new ∧
      (∀ n, v = .string n → n ≠ "" → new = n) ∧ (v.truthy = false → new = old) := by
  rcases h with hf | ⟨n, rfl⟩
  · refine ⟨old, by simp [hf], ?_, fun _ => rfl⟩
    intro n hn hne
    subst hn
    simp [JsValue.truthy, hne] at hf
  · by_cases hne : n = ""
    · subst hne
      refine ⟨old, by simp [JsValue.truthy], ?_, fun _ => rfl⟩
      intro n hn hne
      cases hn
      exact absurd rfl hne
    · refine ⟨n, by simp [JsValue.truthy, hne, castString], ?_, ?_⟩
      · intro m hm _
        cases hm
        rfl
      · intro hf
        simp [JsValue.truthy, hne] at hf

theorem assign_number (other : JsValue → Option JsNumber) (v : JsValue) (old : JsNumber)
    (h : v.truthy = false ∨ ∃ a, v = .number a) :
    ∃ new, (if v.truthy then castNumber other v else some old) = some new ∧
      (∀ a, v = .number a → a.truthy = true → new = a) ∧ (v.truthy = false → new = old) := by
  rcases h with hf | ⟨a, rfl⟩
  · refine ⟨old, by simp [hf], ?_, fun _ => rfl⟩
    intro a ha ht
    subst ha
    simp [JsValue.truthy, ht] at hf
  · cases ht : a.truthy
    · refine ⟨old, by simp [JsValue.truthy, ht], ?_, fun _ => rfl⟩
      intro b hb hbt
      cases hb
      rw [ht] at hbt
      cases hbt
    · refine ⟨a, by simp [JsValue.truthy, ht, castNumber], ?_, ?_⟩
      · intro b hb _
        cases hb
        rfl
      · intro hf
        simp [JsValue.truthy, ht] at hf

/-- C2 (as amended): an update-profile request from the owner of a stored
profile, in which each of name, age and biography is falsy or a value of the
type of its schema path (a string for name and biography, a number for age), is
answered 200 with the saved profile.  In it each of the three is the supplied
value when that value is truthy (a non-empty string; a number other than `0`,
`-0` and `NaN`) and the stored value when it is missing or falsy, while
`userId` and `link` are the stored ones; the saved profile replaces the
stored one. -/
theorem updateProfile_truthy_merge (castStringOther : JsValue → Option String)
    (castNumberOther : JsValue → Option JsNumber)
    (claims : Claims) (body : UpdateProfileBody) (st : Db) (p : Profile)
    (hp : Profile.findOne st.profiles claims.id = some p)
    (hname : body.name.truthy = false ∨ ∃ n, body.name = .string n)
    (hage : body.age.truthy = false ∨ ∃ a, body.age = .number a)
    (hbio : body.biography.truthy = false ∨ ∃ b, body.biography = .string b) :
    ∃ (saved : Profile) (st1 : Db),
      updateProfile castStringOther castNumberOther claims body st =
        (⟨200, .json saved⟩, st1) ∧
      (∀ n, body.name = .string n → n ≠ "" → saved.name = n) ∧
      (body.name.truthy = false → saved.name = p.name) ∧
      (∀ a, body.age = .number a → a.truthy = true → saved.age = a) ∧
      (body.age.truthy = false → saved.age = p.age) ∧
      (∀ b, body.biography = .string b → b ≠ "" → saved.biography = b) ∧
      (body.biography.truthy = false → saved.biography = p.biography) ∧
      saved.userId = p.userId ∧ saved.link = p.link ∧ saved._id = p._id ∧
      st1.users = st.users ∧
      st1.profiles = st.profiles.map (fun q => if q._id = p._id then saved else q) ∧
      Profile.findOne st1.profiles claims.id = some saved := by
  obtain ⟨name, hn, hn1, hn2⟩ := assign_string castStringOther body.name p.name hname
  obtain ⟨age, ha, ha1, ha2⟩ := assign_number castNumberOther body.age p.age hage
  obtain ⟨bio, hb, hb1, hb2⟩ := assign_string castStringOther body.biography p.biography hbio
  refine ⟨{ p with name := name, age := age, biography := bio },
    { st with profiles :=
        Profile.save st.profiles { p with name := name, age := age, biography := bio } },
    ?_, hn1, hn2, ha1, ha2, hb1, hb2, rfl, rfl, rfl, rfl, ?_, ?_⟩
  · simp only [updateProfile, hp, hn, ha, hb]
  · simp [Profile.save]
  · have hu : p.userId = claims.id := Profile.findOne_userId hp
    exact Profile.findOne_save hp rfl hu

/-- C2 (as amended) at a concrete input: the member of `sampleDb` sends
`{age: 0}` and the stored age 30 is kept; she sends `{age: 25}` and the saved
age is 25. -/
theorem updateProfile_truthy_merge_witness :
    (∃ saved st1,
      updateProfile (fun _ => none) (fun _ => none) ⟨2, "a@x.com"⟩
        ⟨.undefined, .number (JsNumber.ofNat 0 (by decide)), .undefined⟩ sampleDb =
        (⟨200, .json saved⟩, st1) ∧ saved.age = JsNumber.ofNat 30 (by decide)) ∧
    (∃ saved st1,
      updateProfile (fun _ => none) (fun _ => none) ⟨2, "a@x.com"⟩
        ⟨.undefined, .number (JsNumber.ofNat 25 (by decide)), .undefined⟩ sampleDb =
        (⟨200, .json saved⟩, st1) ∧ saved.age = JsNumber.ofNat 25 (by decide)) := by
  constructor
  · obtain ⟨saved, st1, h, -, -, -, h0, -⟩ :=
      updateProfile_truthy_merge (fun _ => none) (fun _ => none) ⟨2, "a@x.com"⟩
        ⟨.undefined, .number (JsNumber.ofNat 0 (by decide)), .undefined⟩ sampleDb
        sampleMemberProfile (by decide) (Or.inl rfl) (Or.inr ⟨_, rfl⟩) (Or.inl rfl)
    exact ⟨saved, st1, h, h0 (by decide)⟩
  · obtain ⟨saved, st1, h, -, -, h25, -⟩ :=
      updateProfile_truthy_merge (fun _ => none) (fun _ => none) ⟨2, "a@x.com"⟩
        ⟨.undefined, .number (JsNumber.ofNat 25 (by decide)), .undefined⟩ sampleDb
        sampleMemberProfile (by decide) (Or.inl rfl) (Or.inr ⟨_, rfl⟩) (Or.inl rfl)
    exact ⟨saved, st1, h, h25 _ rfl (by decide)⟩

/-- C2 (as stated) fails: the member of `sampleDb` sends `{age: "abc"}`, a
truthy value; under every cast that, as Mongoose's, fails on `"abc"` for a
`Number` path, the answer is 500 and the stored profile is unchanged, so the
saved age is not the supplied value. -/
theorem updateProfile_uncastable_age_500 :
    Profile.findOne sampleDb.profiles 2 = some sampleMemberProfile ∧
    (JsValue.string "abc").truthy = true ∧
    ∀ (castStringOther : JsValue → Option String)
      (castNumberOther : JsValue → Option JsNumber),
      castNumberOther (.string "abc") = none →
      updateProfile castStringOther castNumberOther ⟨2, "a@x.com"⟩
          ⟨.undefined, .string "abc", .undefined⟩ sampleDb =
        (⟨500, .text "Error updating profile"⟩, sampleDb) := by
  refine ⟨by decide, by decide, ?_⟩
  intro castStringOther castNumberOther hcast
  have hp : Profile.findOne sampleDb.profiles 2 = some sampleMemberProfile := by decide
  simp [updateProfile, hp, JsValue.truthy, castNumber, hcast]
/-! ## Deleting a user -/

theorem eraseP_eq_erase_of_find? {α : Type} [DecidableEq α] (q : α → Bool) (l : List α)
    (a : α) (h : l.find? q = some a) : l.eraseP q = l.erase a := by
  induction l with
  | nil => simp at h
  | cons x l ih =>
    rw [List.find?_cons] at h
    cases hx : q x with
    | true =>
      rw [hx] at h
      cases h
      simp [List.eraseP_cons, hx]
    | false =>
      rw [hx] at h
      have hqa : q a = true := List.find?_some h
      have hne : x ≠ a := by
        rintro rfl
        rw [hx] at hqa
        cases hqa
      rw [List.eraseP_cons, hx, List.erase_cons_tail (by simpa using hne), ih h]
      rfl

theorem captureGroup_ne_nil {cs g : List Char} (h : captureGroup cs = some g) : g ≠ [] := by
  unfold captureGroup at h
  by_cases he : (cs.takeWhile (fun c => c != '.')).isEmpty = true
  · simp [he] at h
  · simp only [he] at h
    simp only [Bool.false_eq_true, if_false, Option.some.injEq] at h
    subst h
    simpa using he

theorem matchAfterUpload_ne_nil {cs g : List Char} (h : matchAfterUpload cs = some g) :
    g ≠ [] := by
  unfold matchAfterUpload at h
  split at h
  · split at h
    · rename_i g2 hg
      cases h
      exact captureGroup_ne_nil hg
    · exact captureGroup_ne_nil h
  · exact captureGroup_ne_nil h

theorem regexSearch_ne_nil {cs g : List Char} (h : regexSearch cs = some g) : g ≠ [] := by
  induction cs with
  | nil => simp [regexSearch] at h
  | cons c cs ih =>
    unfold regexSearch at h
    split at h
    · rename_i g2 hg
      cases h
      unfold matchAt at hg
      split at hg
      · exact matchAfterUpload_ne_nil hg
      · cases hg
    · exact ih h

theorem extractPublicId_ne_empty {url i : String} (h : extractPublicId url = some i) :
    i ≠ "" := by
  unfold extractPublicId at h
  rw [Option.map_eq_some'] at h
  obtain ⟨g, hg, rfl⟩ := h
  intro hc
  apply regexSearch_ne_nil hg
  simpa using congrArg String.data hc

/-- C4: a delete-user request whose requester is not stored, or is stored with
`isAdmin` false, is answered 403 "Access denied" whatever the target id; no
image deletion is attempted and both collections are unchanged. -/
theorem deleteUser_non_admin (destroy : String → Except String String) (claims : Claims)
    (targetId : ObjectId) (st : Db)
    (h : User.findById st.users claims.id = none ∨
      ∃ r, User.findById st.users claims.id = some r ∧ r.isAdmin = false) :
    deleteUser destroy claims targetId st = (⟨403, "Access denied"⟩, st, []) := by
  rcases h with h | ⟨r, hr, ha⟩
  · simp [deleteUser, h]
  · simp [deleteUser, hr, ha]

/-- C4 at a concrete input: the member of `sampleDb` asks to delete the
administrator. -/
theorem deleteUser_non_admin_witness :
    deleteUser (fun _ => .ok "ok") ⟨2, "a@x.com"⟩ 1 sampleDb =
      (⟨403, "Access denied"⟩, sampleDb, []) :=
  deleteUser_non_admin (fun _ => .ok "ok") ⟨2, "a@x.com"⟩ 1 sampleDb
    (Or.inr ⟨sampleMember, by decide, rfl⟩)

/-- C3 (as amended): when an administrator deletes a user who owns a profile
with an avatar link, and the image deletion does not throw (whatever result the
image host reports, or because no public id is extracted from the link and the
deletion is skipped), the answer is 200 and the user and the profile are
removed from their collections; when the image deletion throws, the answer is
500 "Error deleting user" and both collections are unchanged. -/
theorem deleteUser_admin (destroy : String → Except String String) (claims : Claims)
    (targetId : ObjectId) (st : Db) (requester target : User) (p : Profile)
    (hr : User.findById st.users claims.id = some requester)
    (hadmin : requester.isAdmin = true)
    (ht : User.findById st.users targetId = some target)
    (hp : Profile.findOne st.profiles targetId = some p) (hlink : p.link ≠ "") :
    ((∀ i, extractPublicId p.link = some i → ∃ r, destroy i = .ok r) →
      ∃ called, deleteUser destroy claims targetId st =
        (⟨200, "User deleted successfully"⟩,
          { users := st.users.erase target, profiles := st.profiles.erase p }, called)) ∧
    (∀ i e, extractPublicId p.link = some i → destroy i = .error e →
      deleteUser destroy claims targetId st = (⟨500, "Error deleting user"⟩, st, [i])) := by
  have hu : User.findByIdAndDelete st.users targetId = st.users.erase target :=
    eraseP_eq_erase_of_find? _ _ _ ht
  have hq : Profile.findOneAndDelete st.profiles targetId = st.profiles.erase p :=
    eraseP_eq_erase_of_find? _ _ _ hp
  constructor
  · intro hd
    rcases he : extractPublicId p.link with _ | i
    · exact ⟨[], by simp [deleteUser, hr, hadmin, hp, hlink, he, hu, hq]⟩
    · have hi := extractPublicId_ne_empty he
      obtain ⟨r, hres⟩ := hd i he
      exact ⟨[i], by simp [deleteUser, hr, hadmin, hp, hlink, he, hi, hres, hu, hq]⟩
  · intro i e he hd
    have hi := extractPublicId_ne_empty he
    simp [deleteUser, hr, hadmin, hp, hlink, he, hi, hd]

/-- C3 (as amended) at a concrete input: the administrator of `sampleDb`
deletes the member while the image host reports that it found no such image. -/
theorem deleteUser_admin_witness :
    ∃ called, deleteUser (fun _ => .ok "not found") ⟨1, "root@x.com"⟩ 2 sampleDb =
      (⟨200, "User deleted successfully"⟩,
        { users := [sampleAdmin], profiles := [Profile.new 3 1] }, called) := by
  obtain ⟨called, h⟩ :=
    (deleteUser_admin (fun _ => .ok "not found") ⟨1, "root@x.com"⟩ 2 sampleDb
      sampleAdmin sampleMember sampleMemberProfile
      (by decide) rfl (by decide) (by decide) (by decide)).1 (fun _ _ => ⟨_, rfl⟩)
  have hu : sampleDb.users.erase sampleMember = [sampleAdmin] := by decide
  have hq : sampleDb.profiles.erase sampleMemberProfile = [Profile.new 3 1] := by decide
  rw [hu, hq] at h
  exact ⟨called, h⟩

/-- C3 (as stated) fails: the administrator of `sampleDb` deletes the member,
who owns a profile with an avatar link, while the image deletion throws; the
answer is 500 and the member and her profile are still stored. -/
theorem deleteUser_image_failure_500 :
    deleteUser (fun _ => .error "timeout") ⟨1, "root@x.com"⟩ 2 sampleDb =
      (⟨500, "Error deleting user"⟩, sampleDb, ["profiles/abc"]) := by
  decide

/-! ## Login -/

theorem User.findOne_eq_none {users : List User} {email : String} :
    User.findOne users email = none ↔ ∀ u ∈ users, u.email ≠ email := by
  simp [User.findOne]

theorem User.findOne_some {users : List User} {email : String} {u : User}
    (h : User.findOne users email = some u) : u ∈ users ∧ u.email = email := by
  refine ⟨List.mem_of_find?_eq_some h, ?_⟩
  have := List.find?_some h
  simpa using this

/-- C7 (as amended): a login request whose email is a string is answered 404
exactly when no stored user has the email; 500 "Error logging in" exactly when
a stored user has the email and the password is missing or not a string; 401
exactly when the password is a string that the hash of the stored user with
that email (the one `findOne` returns) does not match; and otherwise 200 with
the token signed over that user's `{id, email}` and a user object made of its
id, name and email only. -/
theorem login_cases {Tok : Type}
    (queryOther : JsValue → List User → Except String (Option User))
    (compare : String → String → Bool) (sign : Claims → Tok)
    (email : String) (password : JsValue) (st : Db) :
    ((login queryOther compare sign ⟨.string email, password⟩ st).status = 404 ↔
      ∀ u ∈ st.users, u.email ≠ email) ∧
    ((login queryOther compare sign ⟨.string email, password⟩ st).status = 500 ↔
      (∃ u ∈ st.users, u.email = email) ∧ ∀ pw, password ≠ .string pw) ∧
    ((∃ u ∈ st.users, u.email = email) → (∀ pw, password ≠ .string pw) →
      login queryOther compare sign ⟨.string email, password⟩ st =
        ⟨500, .message "Error logging in"⟩) ∧
    ((login queryOther compare sign ⟨.string email, password⟩ st).status = 401 ↔
      ∃ u pw, User.findOne st.users email = some u ∧ password = .string pw ∧
        compare pw u.password = false) ∧
    ((login queryOther compare sign ⟨.string email, password⟩ st).status ≠ 404 →
      (login queryOther compare sign ⟨.string email, password⟩ st).status ≠ 500 →
      (login queryOther compare sign ⟨.string email, password⟩ st).status ≠ 401 →
      ∃ u pw, u ∈ st.users ∧ u.email = email ∧
        User.findOne st.users email = some u ∧ password = .string pw ∧
        compare pw u.password = true ∧
        login queryOther compare sign ⟨.string email, password⟩ st =
          ⟨200, .success "Login successful" (sign { id := u._id, email := u.email })
            { id := u._id, name := u.name, email := u.email }⟩) := by
  rcases hf : User.findOne st.users email with _ | u
  · have hnone := User.findOne_eq_none.mp hf
    have hex : ¬ ∃ u ∈ st.users, u.email = email := by
      rintro ⟨u, hu, he⟩
      exact hnone u hu he
    refine ⟨?_, ?_, ?_, ?_, ?_⟩
    · simpa [login, hf] using hnone
    · simp only [login, hf]
      constructor
      · intro h
        simp at h
      · rintro ⟨h, -⟩
        exact absurd h hex
    · intro h
      exact absurd h hex
    · simp [login, hf]
    · simp [login, hf]
  · obtain ⟨hmem, hemail⟩ := User.findOne_some hf
    have hex : ∃ v ∈ st.users, v.email = email := ⟨u, hmem, hemail⟩
    have hnot : ¬ ∀ v ∈ st.users, v.email ≠ email := fun h => h u hmem hemail
    by_cases hs : ∃ pw, password = .string pw
    · obtain ⟨pw, rfl⟩ := hs
      have hnp : ¬ ∀ q, JsValue.string pw ≠ .string q := fun h => h pw rfl
      cases hc : compare pw u.password
      · refine ⟨?_, ?_, ?_, ?_, ?_⟩
        · simp [login, hf, hc, hnot]
        · simp [login, hf, hc]
        · intro _ h
          exact absurd h hnp
        · simp [login, hf, hc]
        · simp [login, hf, hc]
      · refine ⟨?_, ?_, ?_, ?_, ?_⟩
        · simp [login, hf, hc, hnot]
        · simp [login, hf, hc]
        · intro _ h
          exact absurd h hnp
        · simp [login, hf, hc]
        · intro _ _ _
          exact ⟨u, pw, hmem, hemail, rfl, rfl, hc, by simp [login, hf, hc]⟩
    · have hall : ∀ pw, password ≠ .string pw := fun pw h => hs ⟨pw, h⟩
      have h500 : login queryOther compare sign ⟨.string email, password⟩ st =
          ⟨500, .message "Error logging in"⟩ := by
        cases password with
        | string pw => exact absurd rfl (hall pw)
        | _ => simp [login, hf]
      refine ⟨?_, ?_, ?_, ?_, ?_⟩
      · simp [h500, hnot]
      · simp only [h500, true_iff]
        exact ⟨hex, hall⟩
      · intro _ _
        exact h500
      · simp only [h500]
        constructor
        · intro h
          simp at h
        · rintro ⟨v, pw, -, hp, -⟩
          exact absurd hp (hall pw)
      · intro _ h
        simp [h500] at h

/-- C7 (as stated) fails: a stored user of `sampleDb` has the email `a@x.com`,
the request carries no password, no store operation fails, and the answer is
500, which is neither 404 nor 401 nor 200. -/
theorem login_missing_password_500 :
    (∃ u ∈ sampleDb.users, u.email = "a@x.com") ∧
    ∀ (queryOther : JsValue → List User → Except String (Option User))
      (compare : String → String → Bool) (sign : Claims → String),
      login queryOther compare sign ⟨.string "a@x.com", .undefined⟩ sampleDb =
        ⟨500, .message "Error logging in"⟩ := by
  refine ⟨by decide, ?_⟩
  intro queryOther compare sign
  have hf : User.findOne sampleDb.users "a@x.com" = some sampleMember := by decide
  simp [login, hf]
/-! ## Registration -/

theorem le_foldr_max (l : List Nat) : ∀ x ∈ l, x ≤ l.foldr max 0 := by
  induction l with
  | nil => simp
  | cons a l ih =>
    intro x hx
    rcases List.mem_cons.mp hx with rfl | hx
    · simp
    · exact le_trans (ih x hx) (by simp)

theorem Db.lt_freshId (st : Db) : ∀ i ∈ st.ids, i < st.freshId := by
  intro i hi
  exact Nat.lt_succ_of_le (le_foldr_max _ i hi)

theorem Db.userId_ne_freshId (st : Db) : ∀ q ∈ st.profiles, q.userId ≠ st.freshId := by
  intro q hq
  have : q.userId ∈ st.ids := by
    simp only [Db.ids, List.mem_append, List.mem_map]
    exact Or.inr ⟨q, hq, rfl⟩
  exact Nat.ne_of_lt (st.lt_freshId _ this)

theorem Db.user_id_ne_freshId (st : Db) : ∀ u ∈ st.users, u._id ≠ st.freshId := by
  intro u hu
  have : u._id ∈ st.ids := by
    simp only [Db.ids, List.mem_append, List.mem_map]
    exact Or.inl (Or.inl ⟨u, hu, rfl⟩)
  exact Nat.ne_of_lt (st.lt_freshId _ this)

theorem addUser_status (hash : String → String) (body : AddUserBody) (st : Db) :
    (∃ name email pw, body = ⟨some name, some email, some pw⟩ ∧
      name ≠ "" ∧ email ≠ "" ∧ hash pw ≠ "" ∧ (∀ u ∈ st.users, u.email ≠ email) ∧
      addUser hash body st =
        (⟨201, "User created successfully!"⟩, registered hash name email pw st)) ∨
    addUser hash body st = (⟨500, "Error creating user"⟩, st) := by
  rcases body with ⟨_ | name, _ | email, _ | pw⟩ <;>
    try (right; simp [addUser, User.validate]; done)
  by_cases hv : name ≠ "" ∧ email ≠ "" ∧ hash pw ≠ ""
  · by_cases hfree : ∀ u ∈ st.users, u.email ≠ email
    · left
      refine ⟨name, email, pw, rfl, hv.1, hv.2.1, hv.2.2, hfree, ?_⟩
      have hany : (st.users.any fun v => v.email == email) = false := by
        simpa using hfree
      simp [addUser, User.validate, hv, User.insert, hany, registered]
    · right
      have hany : (st.users.any fun v => v.email == email) = true := by
        simpa using hfree
      simp [addUser, User.validate, hv, User.insert, hany]
  · right
    simp [addUser, User.validate, hv]

theorem addUser_accepts (hash : String → String) (body : AddUserBody) (st : Db)
    (email : String) (he : body.email = some email)
    (hv : addUserValid hash body = true) (hfree : ∀ u ∈ st.users, u.email ≠ email) :
    ∃ name pw, addUser hash body st =
      (⟨201, "User created successfully!"⟩, registered hash name email pw st) := by
  rcases body with ⟨_ | name, _ | email2, _ | pw⟩ <;>
    simp [addUserValid, User.validate] at hv he
  subst he
  have hany : (st.users.any fun v => v.email == email2) = false := by
    simpa using hfree
  exact ⟨name, pw, by simp [addUser, User.validate, hv, User.insert, hany, registered]⟩

theorem addUser_rejects (hash : String → String) (body : AddUserBody) (st : Db)
    (h : addUserValid hash body = false ∨ ∃ u ∈ st.users, body.email = some u.email) :
    addUser hash body st = (⟨500, "Error creating user"⟩, st) := by
  rcases addUser_status hash body st with ⟨name, email, pw, rfl, h1, h2, h3, hfree, -⟩ | h500
  · rcases h with h | ⟨u, hu, he⟩
    · simp [addUserValid, User.validate, h1, h2, h3] at h
    · simp only [Option.some.injEq] at he
      exact absurd he.symm (hfree u hu)
  · exact h500

theorem registered_users_filter (hash : String → String) (name email pw : String) (st : Db)
    (hfree : ∀ u ∈ st.users, u.email ≠ email) :
    (registered hash name email pw st).users.filter (fun u => u.email == email) =
      [⟨st.freshId, name, email, false, hash pw⟩] := by
  have : st.users.filter (fun u => u.email == email) = [] := by
    simpa [List.filter_eq_nil_iff] using hfree
  simp [registered, List.filter_append, this]

theorem registered_profiles_filter (hash : String → String) (name email pw : String)
    (st : Db) :
    (registered hash name email pw st).profiles.filter (fun p => p.userId == st.freshId) =
      [Profile.new (Db.freshId { st with users := st.users ++ [⟨st.freshId, name, email, false, hash pw⟩] })
        st.freshId] := by
  have : st.profiles.filter (fun p => p.userId == st.freshId) = [] := by
    simpa [List.filter_eq_nil_iff] using st.userId_ne_freshId
  simp [registered, List.filter_append, this, Profile.new]

theorem registered_findOne_user (hash : String → String) (name email pw : String) (st : Db)
    (hfree : ∀ u ∈ st.users, u.email ≠ email) :
    User.findOne (registered hash name email pw st).users email =
      some ⟨st.freshId, name, email, false, hash pw⟩ := by
  have : st.users.find? (fun u => u.email == email) = none := by
    simpa using hfree
  simp [User.findOne, registered, List.find?_append, this]

theorem registered_findOne_profile (hash : String → String) (name email pw : String)
    (st : Db) :
    Profile.findOne (registered hash name email pw st).profiles st.freshId =
      some (Profile.new
        (Db.freshId { st with users := st.users ++ [⟨st.freshId, name, email, false, hash pw⟩] })
        st.freshId) := by
  have : st.profiles.find? (fun p => p.userId == st.freshId) = none := by
    simpa using st.userId_ne_freshId
  simp [Profile.findOne, registered, List.find?_append, this, Profile.new]


/-- C5: when add-user answers 201, its body carries a name, an email and a
password, and a login with that email and password on the resulting state
answers 200 with a token that decodes to the id of the user the registration
created and its email, provided `compare p (hash p)` holds and `decode`
inverts `sign`. -/
theorem addUser_then_login {Tok : Type}
    (queryOther : JsValue → List User → Except String (Option User))
    (hash : String → String)
    (compare : String → String → Bool) (sign : Claims → Tok) (decode : Tok → Option Claims)
    (hcmp : ∀ p, compare p (hash p) = true) (hdec : ∀ c, decode (sign c) = some c)
    (body : AddUserBody) (st : Db) (h201 : (addUser hash body st).1.status = 201) :
    ∃ (name email pw : String) (newUser : User) (token : Tok),
      body = ⟨some name, some email, some pw⟩ ∧
      (addUser hash body st).2.users = st.users ++ [newUser] ∧
      newUser.email = email ∧ (∀ u ∈ st.users, u._id ≠ newUser._id) ∧
      login queryOther compare sign ⟨.string email, .string pw⟩ (addUser hash body st).2 =
        ⟨200, .success "Login successful" token
          { id := newUser._id, name := name, email := email }⟩ ∧
      decode token = some { id := newUser._id, email := email } := by
  rcases addUser_status hash body st with ⟨name, email, pw, rfl, -, -, -, hfree, hrun⟩ | h500
  · refine ⟨name, email, pw, ⟨st.freshId, name, email, false, hash pw⟩,
      sign { id := st.freshId, email := email }, rfl, ?_, rfl, st.user_id_ne_freshId, ?_, hdec _⟩
    · rw [hrun]
      rfl
    · rw [hrun]
      simp [login, registered_findOne_user hash name email pw st hfree, hcmp]
  · rw [h500] at h201
    simp at h201

/-- C5 at a concrete input: registering in `sampleDb`, with the identity as
hash, string equality as compare, and claims as their own tokens. -/
theorem addUser_then_login_witness :
    ∃ (name email pw : String) (newUser : User) (token : Claims),
      (⟨some "B", some "b@x.com", some "p"⟩ : AddUserBody) = ⟨some name, some email, some pw⟩ ∧
      (addUser id ⟨some "B", some "b@x.com", some "p"⟩ sampleDb).2.users =
        sampleDb.users ++ [newUser] ∧
      newUser.email = email ∧ (∀ u ∈ sampleDb.users, u._id ≠ newUser._id) ∧
      login (fun _ _ => .ok none) (fun p h => p == h) id ⟨.string email, .string pw⟩
          (addUser id ⟨some "B", some "b@x.com", some "p"⟩ sampleDb).2 =
        ⟨200, .success "Login successful" token
          { id := newUser._id, name := name, email := email }⟩ ∧
      some token = some { id := newUser._id, email := email } :=
  addUser_then_login (fun _ _ => .ok none) id (fun p h => p == h) id some (by simp)
    (fun _ => rfl)
    ⟨some "B", some "b@x.com", some "p"⟩ sampleDb (by decide)

/-- C9: when add-user answers 201, the profile collection is the one before
with one profile appended; that profile references the user just created and
has the schema defaults; no profile stored before references that user; and a
read-own-profile request with that user's id in its claims answers 200 with
that profile. -/
theorem addUser_creates_default_profile (hash : String → String) (body : AddUserBody)
    (st : Db) (h201 : (addUser hash body st).1.status = 201) :
    ∃ (newUser : User) (newProfile : Profile),
      (addUser hash body st).2.users = st.users ++ [newUser] ∧
      (addUser hash body st).2.profiles = st.profiles ++ [newProfile] ∧
      newProfile.userId = newUser._id ∧
      newProfile.name = "Your Name" ∧ newProfile.age = JsNumber.ofNat 18 (by decide) ∧
      newProfile.biography = "This user hasn't added a bio yet." ∧
      newProfile.link = "This user hasn't added a Photo yet." ∧
      (∀ q ∈ st.profiles, q.userId ≠ newUser._id) ∧
      ∀ email, getProfile ⟨newUser._id, email⟩ (addUser hash body st).2 =
        ⟨200, .json newProfile⟩ := by
  rcases addUser_status hash body st with ⟨name, email, pw, rfl, -, -, -, -, hrun⟩ | h500
  · refine ⟨⟨st.freshId, name, email, false, hash pw⟩,
      Profile.new (Db.freshId
        { st with users := st.users ++ [⟨st.freshId, name, email, false, hash pw⟩] }) st.freshId,
      ?_, ?_, rfl, rfl, rfl, rfl, rfl, st.userId_ne_freshId, ?_⟩
    · rw [hrun]
      rfl
    · rw [hrun]
      rfl
    · intro e
      rw [hrun]
      simp only [getProfile, registered_findOne_profile hash name email pw st]
  · rw [h500] at h201
    simp at h201

/-- C9 at a concrete input: registering in `sampleDb`. -/
theorem addUser_creates_default_profile_witness :
    ∃ (newUser : User) (newProfile : Profile),
      (addUser id ⟨some "B", some "b@x.com", some "p"⟩ sampleDb).2.users =
        sampleDb.users ++ [newUser] ∧
      (addUser id ⟨some "B", some "b@x.com", some "p"⟩ sampleDb).2.profiles =
        sampleDb.profiles ++ [newProfile] ∧
      newProfile.userId = newUser._id ∧
      newProfile.name = "Your Name" ∧ newProfile.age = JsNumber.ofNat 18 (by decide) ∧
      newProfile.biography = "This user hasn't added a bio yet." ∧
      newProfile.link = "This user hasn't added a Photo yet." ∧
      (∀ q ∈ sampleDb.profiles, q.userId ≠ newUser._id) ∧
      ∀ email, getProfile ⟨newUser._id, email⟩
          (addUser id ⟨some "B", some "b@x.com", some "p"⟩ sampleDb).2 =
        ⟨200, .json newProfile⟩ :=
  addUser_creates_default_profile id ⟨some "B", some "b@x.com", some "p"⟩ sampleDb (by decide)

/-- C6 (as amended): on a state in which no user has the email, two add-user
requests carrying that email, at least one of which passes validation, run one
after the other: exactly one is answered 201 and the other 500; afterwards
exactly one stored user has the email and exactly one stored profile
references that user. -/
theorem addUser_twice_same_email (hash : String → String) (b1 b2 : AddUserBody)
    (email : String) (st : Db)
    (he1 : b1.email = some email) (he2 : b2.email = some email)
    (hfree : ∀ u ∈ st.users, u.email ≠ email)
    (hvalid : addUserValid hash b1 = true ∨ addUserValid hash b2 = true) :
    ∃ (r1 r2 : Response String) (st1 st2 : Db) (u : User) (p : Profile),
      addUser hash b1 st = (r1, st1) ∧ addUser hash b2 st1 = (r2, st2) ∧
      ((r1.status = 201 ∧ r2 = ⟨500, "Error creating user"⟩) ∨
        (r1 = ⟨500, "Error creating user"⟩ ∧ r2.status = 201)) ∧
      st2.users.filter (fun v => v.email == email) = [u] ∧
      st2.profiles.filter (fun q => q.userId == u._id) = [p] := by
  by_cases hv1 : addUserValid hash b1 = true
  · obtain ⟨name, pw, hrun1⟩ := addUser_accepts hash b1 st email he1 hv1 hfree
    have hrun2 : addUser hash b2 (registered hash name email pw st) =
        (⟨500, "Error creating user"⟩, registered hash name email pw st) := by
      apply addUser_rejects
      right
      exact ⟨⟨st.freshId, name, email, false, hash pw⟩, by simp [registered], he2⟩
    exact ⟨_, _, _, _, _, _, hrun1, hrun2, Or.inl ⟨rfl, rfl⟩,
      registered_users_filter hash name email pw st hfree,
      registered_profiles_filter hash name email pw st⟩
  · have hv2 : addUserValid hash b2 = true := by
      rcases hvalid with h | h
      · exact absurd h hv1
      · exact h
    have hrun1 : addUser hash b1 st = (⟨500, "Error creating user"⟩, st) :=
      addUser_rejects hash b1 st (Or.inl (by simpa using hv1))
    obtain ⟨name, pw, hrun2⟩ := addUser_accepts hash b2 st email he2 hv2 hfree
    exact ⟨_, _, _, _, _, _, hrun1, hrun2, Or.inr ⟨rfl, rfl⟩,
      registered_users_filter hash name email pw st hfree,
      registered_profiles_filter hash name email pw st⟩

/-- C6 (as amended) at a concrete input: two registrations of `b@x.com` in
`sampleDb`. -/
theorem addUser_twice_same_email_witness :
    ∃ (r1 r2 : Response String) (st1 st2 : Db) (u : User) (p : Profile),
      addUser id ⟨some "B", some "b@x.com", some "p"⟩ sampleDb = (r1, st1) ∧
      addUser id ⟨some "C", some "b@x.com", some "q"⟩ st1 = (r2, st2) ∧
      ((r1.status = 201 ∧ r2 = ⟨500, "Error creating user"⟩) ∨
        (r1 = ⟨500, "Error creating user"⟩ ∧ r2.status = 201)) ∧
      st2.users.filter (fun v => v.email == "b@x.com") = [u] ∧
      st2.profiles.filter (fun q => q.userId == u._id) = [p] :=
  addUser_twice_same_email id ⟨some "B", some "b@x.com", some "p"⟩
    ⟨some "C", some "b@x.com", some "q"⟩ "b@x.com" sampleDb rfl rfl (by decide)
    (Or.inl (by decide))

/-- C6 (as stated) fails: `sampleDb` already holds a user with `a@x.com`, and
two add-user requests carrying that email are both answered 500. -/
theorem addUser_twice_taken_email :
    (addUser id ⟨some "B", some "a@x.com", some "p"⟩ sampleDb).1.status = 500 ∧
    (addUser id ⟨some "C", some "a@x.com", some "q"⟩
      (addUser id ⟨some "B", some "a@x.com", some "p"⟩ sampleDb).2).1.status = 500 := by
  decide

/-! ## Extracting the public id -/

theorem uploadLiteral_eq : uploadLiteral = ['/', 'u', 'p', 'l', 'o', 'a', 'd', '/'] := rfl

theorem matchAt_upload (rest : List Char) :
    matchAt (uploadLiteral ++ rest) = matchAfterUpload rest := by
  simp [matchAt, uploadLiteral_eq]

theorem matchAt_inside_pre (s tail : List Char) (hs : s ≠ [])
    (h1 : ¬ uploadLiteral <:+: s) (h2 : ¬ "/upload".toList <:+ s) :
    matchAt (s ++ uploadLiteral ++ tail) = none := by
  have key : uploadLiteral.isPrefixOf (s ++ uploadLiteral ++ tail) = false := by
    rw [uploadLiteral_eq] at h1 ⊢
    rcases s with _ | ⟨c1, _ | ⟨c2, _ | ⟨c3, _ | ⟨c4, _ | ⟨c5, _ | ⟨c6, _ | ⟨c7, _ | ⟨c8, r⟩⟩⟩⟩⟩⟩⟩⟩
    · exact absurd rfl hs
    · simp [List.isPrefixOf]
    · simp [List.isPrefixOf]
    · simp [List.isPrefixOf]
    · simp [List.isPrefixOf]
    · simp [List.isPrefixOf]
    · simp [List.isPrefixOf]
    · by_contra hc
      apply h2
      simp [List.isPrefixOf] at hc
      obtain ⟨rfl, rfl, rfl, rfl, rfl, rfl, rfl⟩ := hc
      exact List.suffix_refl _
    · by_contra hc
      apply h1
      simp [List.isPrefixOf] at hc
      obtain ⟨rfl, rfl, rfl, rfl, rfl, rfl, rfl, rfl⟩ := hc
      exact (List.prefix_append _ r).isInfix
  unfold matchAt
  rw [key]
  rfl

theorem regexSearch_skip_pre (pre tail : List Char)
    (h1 : ¬ uploadLiteral <:+: pre) (h2 : ¬ "/upload".toList <:+ pre) :
    regexSearch (pre ++ uploadLiteral ++ tail) = regexSearch (uploadLiteral ++ tail) := by
  induction pre with
  | nil => simp
  | cons c pre ih =>
    have hnone := matchAt_inside_pre (c :: pre) tail (by simp) h1 h2
    have ih2 := ih (fun h => h1 (h.trans (List.suffix_cons c pre).isInfix))
      (fun h => h2 (h.trans (List.suffix_cons c pre)))
    rw [List.cons_append, List.cons_append] at hnone ⊢
    rw [regexSearch, hnone]
    exact ih2

theorem regexSearch_upload (rest g : List Char) (h : matchAfterUpload rest = some g) :
    regexSearch (uploadLiteral ++ rest) = some g := by
  have hm := matchAt_upload rest
  rw [uploadLiteral_eq] at hm ⊢
  rw [List.cons_append] at hm ⊢
  rw [regexSearch, hm, h]

theorem versionSegment_version (ds r : List Char) (hne : ds ≠ [])
    (hd : ∀ c ∈ ds, c.isDigit = true) :
    versionSegment ('v' :: (ds ++ '/' :: r)) = some r := by
  have hdrop : (ds ++ '/' :: r).dropWhile Char.isDigit = '/' :: r := by
    rw [List.dropWhile_append_of_pos hd]
    rw [List.dropWhile_cons_of_neg (by decide)]
  have htake : (ds ++ '/' :: r).takeWhile Char.isDigit = ds := by
    rw [List.takeWhile_append_of_pos hd]
    rw [List.takeWhile_cons_of_neg (by decide)]
    simp
  have hemp : ds.isEmpty = false := by
    cases ds with
    | nil => exact absurd rfl hne
    | cons _ _ => rfl
  simp only [versionSegment, hdrop, htake, hemp]
  simp

theorem versionSegment_some {cs r : List Char} (h : versionSegment cs = some r) :
    ∃ ds, ds ≠ [] ∧ (∀ c ∈ ds, c.isDigit = true) ∧ cs = 'v' :: (ds ++ '/' :: r) := by
  unfold versionSegment at h
  split at h
  · rename_i cs2
    split at h
    · rename_i rest hdrop
      by_cases hemp : (cs2.takeWhile Char.isDigit).isEmpty = true
      · simp [hemp] at h
      · simp only [hemp, Bool.false_eq_true, if_false, Option.some.injEq] at h
        subst h
        refine ⟨cs2.takeWhile Char.isDigit, ?_, ?_, ?_⟩
        · simpa using hemp
        · intro c hc
          exact (List.mem_takeWhile_imp hc)
        · rw [← hdrop, List.takeWhile_append_dropWhile]
    · cases h
  · cases h

theorem captureGroup_id (ident rest : List Char) (hne : ident ≠ [])
    (hdot : '.' ∉ ident) :
    captureGroup (ident ++ '.' :: rest) = some ident := by
  have hall : ∀ c ∈ ident, (c != '.') = true := by
    intro c hc
    simp only [bne_iff_ne, ne_eq]
    rintro rfl
    exact hdot hc
  have htake : (ident ++ '.' :: rest).takeWhile (fun c => c != '.') = ident := by
    rw [List.takeWhile_append_of_pos hall]
    rw [List.takeWhile_cons_of_neg (by simp)]
    simp
  have hemp : ident.isEmpty = false := by
    cases ident with
    | nil => exact absurd rfl hne
    | cons _ _ => rfl
  simp only [captureGroup, htake, hemp]
  simp

theorem versionSegment_id_none (ident rest : List Char) (hdot : '.' ∉ ident)
    (hv : ¬ ∃ ds r, ds ≠ [] ∧ (∀ c ∈ ds, c.isDigit = true) ∧ ident = 'v' :: (ds ++ '/' :: r)) :
    versionSegment (ident ++ '.' :: rest) = none := by
  rcases hvs : versionSegment (ident ++ '.' :: rest) with _ | r
  · rfl
  · exfalso
    obtain ⟨ds, hne, hd, heq⟩ := versionSegment_some hvs
    apply hv
    have hall : ∀ c ∈ ident, (c != '.') = true := by
      intro c hc
      simp only [bne_iff_ne, ne_eq]
      rintro rfl
      exact hdot hc
    have hallw : ∀ c ∈ 'v' :: (ds ++ ['/']), (c != '.') = true := by
      intro c hc
      simp only [List.mem_cons, List.mem_append, List.mem_singleton, List.mem_nil_iff,
        or_false] at hc
      rcases hc with rfl | hc | rfl
      · decide
      · simp only [bne_iff_ne, ne_eq]
        rintro rfl
        exact absurd (hd _ hc) (by decide)
      · decide
    have ht1 : (ident ++ '.' :: rest).takeWhile (fun c => c != '.') = ident := by
      rw [List.takeWhile_append_of_pos hall]
      rw [List.takeWhile_cons_of_neg (by simp)]
      simp
    have heq2 : ident ++ '.' :: rest = ('v' :: (ds ++ ['/'])) ++ r := by
      rw [heq]
      simp
    have ht2 : (ident ++ '.' :: rest).takeWhile (fun c => c != '.') =
        ('v' :: (ds ++ ['/'])) ++ r.takeWhile (fun c => c != '.') := by
      rw [heq2, List.takeWhile_append_of_pos hallw]
    refine ⟨ds, r.takeWhile (fun c => c != '.'), hne, hd, ?_⟩
    rw [← ht1, ht2]
    simp

theorem regexSearch_url (pre ver ident ext : List Char)
    (h1 : ¬ uploadLiteral <:+: pre) (h2 : ¬ "/upload".toList <:+ pre)
    (hver : ver = [] ∨ ∃ ds, ds ≠ [] ∧ (∀ c ∈ ds, c.isDigit = true) ∧ ver = 'v' :: (ds ++ ['/']))
    (hne : ident ≠ []) (hdot : '.' ∉ ident)
    (hv : ¬ ∃ ds r, ds ≠ [] ∧ (∀ c ∈ ds, c.isDigit = true) ∧ ident = 'v' :: (ds ++ '/' :: r)) :
    regexSearch (pre ++ uploadLiteral ++ (ver ++ (ident ++ '.' :: ext))) = some ident := by
  rw [regexSearch_skip_pre pre _ h1 h2]
  apply regexSearch_upload
  rcases hver with rfl | ⟨ds, hds, hd, rfl⟩
  · simp only [List.nil_append, matchAfterUpload, versionSegment_id_none ident ext hdot hv]
    exact captureGroup_id ident ext hne hdot
  · have : 'v' :: (ds ++ ['/']) ++ (ident ++ '.' :: ext) =
        'v' :: (ds ++ '/' :: (ident ++ '.' :: ext)) := by simp
    rw [this]
    simp only [matchAfterUpload, versionSegment_version ds _ hds hd,
      captureGroup_id ident ext hne hdot]

/-- C8 (as amended): for a URL `pre ++ "/upload/" ++ ver ++ ident ++ "." ++ ext`
in which `pre` neither contains `/upload/` nor ends in `/upload`, `ver` is
empty or `v`, one or more digits and `/`, and `ident` is non-empty, contains no
`.` and does not begin with `v`, digits and `/`, `extractPublicId` returns
`ident`, whatever `ext` is. -/
theorem extractPublicId_url (pre ver ident ext : String)
    (h1 : ¬ "/upload/".toList <:+: pre.toList) (h2 : ¬ "/upload".toList <:+ pre.toList)
    (hver : ver = "" ∨ ∃ ds : List Char, ds ≠ [] ∧ (∀ c ∈ ds, c.isDigit = true) ∧
      ver = "v" ++ String.mk ds ++ "/")
    (hne : ident ≠ "") (hdot : '.' ∉ ident.toList)
    (hv : ¬ ∃ ds r, ds ≠ [] ∧ (∀ c ∈ ds, c.isDigit = true) ∧
      ident.toList = 'v' :: (ds ++ '/' :: r)) :
    extractPublicId (pre ++ "/upload/" ++ ver ++ ident ++ "." ++ ext) = some ident := by
  have hver2 : ver.toList = [] ∨ ∃ ds, ds ≠ [] ∧ (∀ c ∈ ds, c.isDigit = true) ∧
      ver.toList = 'v' :: (ds ++ ['/']) := by
    rcases hver with rfl | ⟨ds, hds, hd, rfl⟩
    · exact Or.inl rfl
    · exact Or.inr ⟨ds, hds, hd, by simp [String.toList, String.data_append]⟩
  have hne2 : ident.toList ≠ [] := by
    intro hc
    apply hne
    cases ident
    simp only [String.toList] at hc
    subst hc
    rfl
  have hurl : (pre ++ "/upload/" ++ ver ++ ident ++ "." ++ ext).toList =
      pre.toList ++ uploadLiteral ++ (ver.toList ++ (ident.toList ++ '.' :: ext.toList)) := by
    simp [String.toList, String.data_append, uploadLiteral]
  unfold extractPublicId
  rw [hurl, regexSearch_url pre.toList ver.toList ident.toList ext.toList h1 h2 hver2 hne2 hdot hv]
  rfl

/-- C8 (as amended) at a concrete input: an image-host URL with a version
segment and an id inside the upload folder. -/
theorem extractPublicId_url_witness :
    extractPublicId ("https://res.cloudinary.com/demo/image" ++ "/upload/" ++ "v17/" ++
      "profiles/abc" ++ "." ++ "png") = some "profiles/abc" :=
  extractPublicId_url "https://res.cloudinary.com/demo/image" "v17/" "profiles/abc" "png"
    (by decide) (by decide) (Or.inr ⟨['1', '7'], by decide, by decide, by decide⟩)
    (by decide) (by decide)
    (by
      rintro ⟨ds, r, -, -, h⟩
      have h2 : "profiles/abc".toList.head? = some 'v' := by
        rw [h]
        rfl
      exact absurd h2 (by decide))

/-- C8 (as stated) fails twice.  With the id `my.photo`, which is non-empty and
does not begin with a version segment, the result is `my`.  With the prefix
`https://cdn.example.com/upload`, which does not contain `/upload/`, and the
id `abc`, the result is `upload/abc`. -/
theorem extractPublicId_not_id :
    (¬ "/upload/".toList <:+: "https://res.cloudinary.com/demo/image".toList ∧
      "my.photo" ≠ "" ∧ "my.photo".toList.head? = some 'm' ∧
      "png" ≠ "" ∧ '.' ∉ "png".toList ∧ '/' ∉ "png".toList ∧
      extractPublicId ("https://res.cloudinary.com/demo/image" ++ "/upload/" ++ "v1/" ++
        "my.photo" ++ "." ++ "png") = some "my") ∧
    (¬ "/upload/".toList <:+: "https://cdn.example.com/upload".toList ∧
      "abc" ≠ "" ∧ "abc".toList.head? = some 'a' ∧
      extractPublicId ("https://cdn.example.com/upload" ++ "/upload/" ++ "" ++
        "abc" ++ "." ++ "png") = some "upload/abc") := by
  decide

end MernBackend
